import Mathlib

/-!
Shallow embedding of `mushroom_detector.py` (class `MushroomTrackDetector`):
the track-metrics extraction and weighted-scoring engine.

Conventions of the embedding:
* Python floats are modelled by exact rationals (`ℚ`); the two standard-deviation
  fields, which apply a square root, are modelled in `ℝ`, with `Option.none`
  standing for the NaN that pandas produces on a one-element column.
* The external geodesic-distance library (`geopy.distance.geodesic`) and the
  float-valued result of `_calculate_bearing` are abstracted as the two fields
  of `Geo`; theorems that need facts about the geodesic (non-negativity,
  triangle inequality) take them as hypotheses.  `_calculate_bearing` itself is
  additionally embedded exactly over `ℝ` as `calculate_bearing`.
* A pandas `DataFrame` is a list of rows plus the three derived columns that
  `calculate_metrics` assigns into it (absent = `none`).
* `pd.Series.diff()` yields NaN at row 0; every use of that column in the code
  guards row 0 (`if i > 0 else 0` for the stop accumulator, `> 0` for the speed
  guard, both of which treat NaN exactly like 0), so the embedding stores 0
  at row 0 of `time_diff`.
-/

namespace Mushroom

/-- One row of the parsed track: `latitude`, `longitude`, `elevation` and the
timestamp, the latter exposed as the absolute instant in seconds (`timeAbs`),
its calendar `month`, and its local time of day in seconds (`timeOfDay`). -/
structure TrackPoint where
  latitude : ℚ
  longitude : ℚ
  elevation : ℚ
  timeAbs : ℚ
  month : ℕ
  timeOfDay : ℚ
deriving DecidableEq, Repr

/-- The two geometric primitives used by `calculate_metrics`:
`dist` models `geodesic(p1, p2).kilometers` (external library) and `bearing`
models the float returned by `self._calculate_bearing`. -/
structure Geo where
  dist : TrackPoint → TrackPoint → ℚ
  bearing : TrackPoint → TrackPoint → ℚ

/-- The nine weights of `config['weights']`. -/
structure Weights where
  tortuosity : ℚ
  avg_speed : ℚ
  direction_changes : ℚ
  stops : ℚ
  season : ℚ
  daytime : ℚ
  duration : ℚ
  altitude_variability : ℚ
  spatial_density : ℚ
deriving DecidableEq, Repr

/-- The configuration record built by `_default_config` / passed to
`MushroomTrackDetector.__init__`.  `day_start` and `day_end` are seconds
since local midnight. -/
structure Config where
  max_mushroom_speed : ℚ
  stop_speed_threshold : ℚ
  min_stop_duration : ℚ
  direction_change_threshold : ℚ
  spring_months : List ℕ
  autumn_months : List ℕ
  day_start : ℚ
  day_end : ℚ
  min_duration : ℚ
  max_duration : ℚ
  weights : Weights
deriving DecidableEq, Repr

/-- `MushroomTrackDetector._default_config`. -/
def default_config : Config where
  max_mushroom_speed := 3
  stop_speed_threshold := 1/2
  min_stop_duration := 60
  direction_change_threshold := 30
  spring_months := [3, 4, 5]
  autumn_months := [9, 10, 11]
  day_start := 8 * 3600
  day_end := 20 * 3600
  min_duration := 2 * 3600
  max_duration := 6 * 3600
  weights :=
    { tortuosity := 1/5
      avg_speed := 3/20
      direction_changes := 3/20
      stops := 1/10
      season := 1/10
      daytime := 1/10
      duration := 1/10
      altitude_variability := 1/20
      spatial_density := 1/20 }

/-- The `TrackMetrics` dataclass.  `speed_std` and `altitude_variability` are
`Option ℝ`: `none` models the NaN of `pandas.Series.std()` on fewer than two
values. -/
structure TrackMetrics where
  total_distance : ℚ
  straight_line_distance : ℚ
  tortuosity_index : ℚ
  avg_speed : ℚ
  speed_std : Option ℝ
  direction_changes_per_km : ℚ
  stop_count : ℕ
  total_duration : ℚ
  avg_altitude : ℚ
  altitude_variability : Option ℝ
  season_score : ℚ
  time_score : ℚ
  duration_score : ℚ
  spatial_density : ℚ

/-- A pandas `DataFrame` as the engine sees it: the parsed rows plus the three
derived columns `calculate_metrics` assigns into the frame it was given
(`none` = column absent). -/
structure DataFrame where
  rows : List TrackPoint
  time_diff : Option (List ℚ)
  distance_diff : Option (List ℚ)
  speed_kmh : Option (List ℚ)
deriving DecidableEq, Repr

/-- A freshly parsed frame: rows only, no derived columns. -/
def dfOf (rows : List TrackPoint) : DataFrame :=
  { rows := rows, time_diff := none, distance_diff := none, speed_kmh := none }

/-- The `distances` list of `calculate_metrics`: consecutive pairwise
geodesic distances (`len(df) - 1` entries). -/
def pairDistances (g : Geo) : List TrackPoint → List ℚ
  | p :: q :: rest => g.dist p q :: pairDistances g (q :: rest)
  | _ => []

/-- The `time_diff` column: `df['time'].diff().dt.total_seconds()`, with the
row-0 NaN stored as 0 (equivalent on every use, see the file comment). -/
def timeDiffs : List TrackPoint → List ℚ
  | [] => []
  | p :: rest => 0 :: List.zipWith (fun b a => b.timeAbs - a.timeAbs) rest (p :: rest)

/-- The `distance_diff` column: `distances + [0]`. -/
def distDiffs (g : Geo) (rows : List TrackPoint) : List ℚ :=
  pairDistances g rows ++ [0]

/-- One entry of the `speed_kmh` column:
`distance_diff / (time_diff / 3600) if time_diff > 0 else 0`. -/
def speedOf (dd td : ℚ) : ℚ :=
  if 0 < td then dd / (td / 3600) else 0

/-- The `speed_kmh` column. -/
def speedColumn (g : Geo) (rows : List TrackPoint) : List ℚ :=
  List.zipWith speedOf (distDiffs g rows) (timeDiffs rows)

/-- `x.sum / len(x)` (pandas `.mean()`; every call site has a nonempty column). -/
def meanQ (xs : List ℚ) : ℚ :=
  xs.sum / xs.length

/-- Sample variance with `ddof = 1`, the square of pandas `.std()`. -/
def sampleVar (xs : List ℚ) : ℚ :=
  (xs.map (fun x => (x - meanQ xs) ^ 2)).sum / ((xs.length : ℚ) - 1)

/-- pandas `.std()`: sample standard deviation, NaN (here `none`) on fewer
than two values. -/
noncomputable def sampleStd (xs : List ℚ) : Option ℝ :=
  if 2 ≤ xs.length then some (Real.sqrt ((sampleVar xs : ℚ) : ℝ)) else none

/-- The loop state of the stop-episode detector: `stop_count`, the
accumulator `stop_duration`, and the flag `in_stop`. -/
structure StopState where
  stop_count : ℕ
  stop_duration : ℚ
  in_stop : Bool
deriving DecidableEq, Repr

/-- One iteration of the stop-detection loop of `calculate_metrics`, on the
pair `x = (speed_kmh, time_diff)` of the current row (row 0 passes
`time_diff = 0`, matching `... if i > 0 else 0`). -/
def stopStep (thr minDur : ℚ) (s : StopState) (x : ℚ × ℚ) : StopState :=
  if x.1 < thr then
    { s with in_stop := true, stop_duration := s.stop_duration + x.2 }
  else
    { stop_count :=
        if s.in_stop = true ∧ minDur ≤ s.stop_duration then s.stop_count + 1 else s.stop_count
      stop_duration := 0
      in_stop := false }

/-- The stop-detection pass: fold `stopStep` over the rows
(`stop_count = 0`, `stop_duration = 0`, `in_stop = False` initially). -/
def stopCountOf (thr minDur : ℚ) (speeds tds : List ℚ) : ℕ :=
  (List.foldl (stopStep thr minDur) ⟨0, 0, false⟩ (speeds.zip tds)).stop_count

/-- Python `%` on a field with floor rounding: `a - b * ⌊a / b⌋`. -/
def pythonMod {α : Type} [LinearOrderedField α] [FloorRing α] (a b : α) : α :=
  a - b * ⌊a / b⌋

/-- The signed angular delta `(bearing2 - bearing1 + 180) % 360 - 180`. -/
def signedDelta {α : Type} [LinearOrderedField α] [FloorRing α] (b1 b2 : α) : α :=
  pythonMod (b2 - b1 + 180) 360 - 180

/-- `angle_change = abs((bearing2 - bearing1 + 180) % 360 - 180)`. -/
def angleChange {α : Type} [LinearOrderedField α] [FloorRing α] (b1 b2 : α) : α :=
  |signedDelta b1 b2|

/-- All consecutive triples of a list: the interior points `i = 1 .. n-2`
together with their neighbours. -/
def triples {α : Type} : List α → List (α × α × α)
  | a :: b :: c :: rest => (a, b, c) :: triples (b :: c :: rest)
  | _ => []

/-- The direction-change loop of `calculate_metrics`: for each interior point,
if both adjacent segment distances are positive, compare the bearing change
against the threshold. -/
def directionChangeCount (g : Geo) (thr : ℚ) (rows : List TrackPoint) : ℕ :=
  (triples rows).foldl
    (fun acc t =>
      if 0 < g.dist t.2.1 t.2.2 ∧ 0 < g.dist t.1 t.2.1 then
        if thr < angleChange (g.bearing t.1 t.2.1) (g.bearing t.2.1 t.2.2) then acc + 1
        else acc
      else acc)
    0

/-- `df.iloc[-1]` of a nonempty frame. -/
def lastOf (p0 : TrackPoint) (rest : List TrackPoint) : TrackPoint :=
  (p0 :: rest).getLast (List.cons_ne_nil p0 rest)

/-- The body of `calculate_metrics` on a nonempty frame `p0 :: rest`:
every field of the returned `TrackMetrics`, computed as in the source. -/
noncomputable def metricsOf (g : Geo) (cfg : Config) (p0 : TrackPoint)
    (rest : List TrackPoint) : TrackMetrics :=
  let rows := p0 :: rest
  let total_distance := (pairDistances g rows).sum
  let straight_line_distance := g.dist p0 (lastOf p0 rest)
  let speeds := speedColumn g rows
  let total_duration := (lastOf p0 rest).timeAbs - p0.timeAbs
  { total_distance := total_distance
    straight_line_distance := straight_line_distance
    tortuosity_index :=
      if 0 < straight_line_distance then total_distance / straight_line_distance else 1
    avg_speed := meanQ speeds
    speed_std := sampleStd speeds
    direction_changes_per_km :=
      if 0 < total_distance then
        (directionChangeCount g cfg.direction_change_threshold rows : ℚ) / total_distance
      else 0
    stop_count := stopCountOf cfg.stop_speed_threshold cfg.min_stop_duration speeds (timeDiffs rows)
    total_duration := total_duration
    avg_altitude := meanQ (rows.map (·.elevation))
    altitude_variability := sampleStd (rows.map (·.elevation))
    season_score := if p0.month ∈ cfg.spring_months ++ cfg.autumn_months then 1 else 0
    time_score :=
      if 0 < rows.length then
        ((rows.countP fun p => decide (cfg.day_start ≤ p.timeOfDay ∧ p.timeOfDay ≤ cfg.day_end)) : ℚ)
          / rows.length
      else 0
    duration_score :=
      if cfg.min_duration ≤ total_duration ∧ total_duration ≤ cfg.max_duration then 1
      else if total_duration < cfg.min_duration then total_duration / cfg.min_duration
      else max 0 (1 - (total_duration - cfg.max_duration) / (cfg.max_duration * 2))
    spatial_density :=
      if 0 < total_distance then (rows.length : ℚ) / total_distance else 0 }

/-- The three column assignments `df['time_diff'] = ...`,
`df['distance_diff'] = ...`, `df['speed_kmh'] = ...` performed on the input
frame by `calculate_metrics`. -/
def withColumns (g : Geo) (df : DataFrame) : DataFrame :=
  { df with
    time_diff := some (timeDiffs df.rows)
    distance_diff := some (distDiffs g df.rows)
    speed_kmh := some (speedColumn g df.rows) }

/-- `MushroomTrackDetector.calculate_metrics`.  The result pairs the returned
`TrackMetrics` with the post-state of the frame (the method mutates its
argument).  `none` models the `IndexError` that `df.iloc[0]` raises on an
empty frame; no other input is rejected. -/
noncomputable def calculate_metrics (g : Geo) (cfg : Config) (df : DataFrame) :
    Option (TrackMetrics × DataFrame) :=
  match df.rows with
  | [] => none
  | p0 :: rest => some (metricsOf g cfg p0 rest, withColumns g df)

/-- The nine entries of the `scores` dict of `calculate_mushroom_score`
(raw [0,1]-range values). -/
structure ComponentScores where
  tortuosity : ℚ
  avg_speed : ℚ
  direction_changes : ℚ
  stops : ℚ
  season : ℚ
  daytime : ℚ
  duration : ℚ
  altitude_variability : ℝ
  spatial_density : ℚ

/-- `MushroomTrackDetector.calculate_mushroom_score`: the composite score
(already scaled by 100) and the raw component scores.  `none` models the NaN
total that Python propagates when `altitude_variability` is NaN (series
shorter than 2); on every valid series the argument is `some`. -/
noncomputable def calculate_mushroom_score (cfg : Config) (m : TrackMetrics) :
    Option (ℝ × ComponentScores) :=
  match m.altitude_variability with
  | none => none
  | some av =>
    let s_tort := min (m.tortuosity_index / 3) 1
    let s_speed :=
      if m.avg_speed ≤ cfg.max_mushroom_speed then 1
      else max 0 (1 - (m.avg_speed - cfg.max_mushroom_speed) / cfg.max_mushroom_speed)
    let s_dir := min (m.direction_changes_per_km / 10) 1
    let s_stops := min ((m.stop_count : ℚ) / 10) 1
    let s_alt : ℝ := min (av / 50) 1
    let s_spat := min (m.spatial_density / 100) 1
    let w := cfg.weights
    let total : ℝ :=
      ((s_tort * w.tortuosity + s_speed * w.avg_speed + s_dir * w.direction_changes +
          s_stops * w.stops + m.season_score * w.season + m.time_score * w.daytime +
          m.duration_score * w.duration + s_spat * w.spatial_density : ℚ) : ℝ) +
        s_alt * (w.altitude_variability : ℝ)
    some (total * 100,
      { tortuosity := s_tort
        avg_speed := s_speed
        direction_changes := s_dir
        stops := s_stops
        season := m.season_score
        daytime := m.time_score
        duration := m.duration_score
        altitude_variability := s_alt
        spatial_density := s_spat })

/-- The sort `df = df.sort_values('time')` performed by `parse_gpx`. -/
def sortByTime (pts : List TrackPoint) : List TrackPoint :=
  pts.mergeSort (fun a b => decide (a.timeAbs ≤ b.timeAbs))

/-- `MushroomTrackDetector.parse_gpx`, downstream of the external gpxpy
decoding: build the frame from the decoded rows, sorted by timestamp. -/
def parse_gpx (pts : List TrackPoint) : DataFrame :=
  dfOf (sortByTime pts)

/-- `MushroomTrackDetector._calculate_bearing`, embedded exactly over `ℝ`:
`math.atan2(x, y)` is the argument of the complex number `y + x*I`
(`Complex.arg`, range `(-π, π]`, `arg 0 = 0` — matching `math.atan2(0, 0) = 0`). -/
noncomputable def calculate_bearing (lat1 lon1 lat2 lon2 : ℝ) : ℝ :=
  let lat1r := lat1 * (Real.pi / 180)
  let lon1r := lon1 * (Real.pi / 180)
  let lat2r := lat2 * (Real.pi / 180)
  let lon2r := lon2 * (Real.pi / 180)
  let dlon := lon2r - lon1r
  let x := Real.sin dlon * Real.cos lat2r
  let y := Real.cos lat1r * Real.sin lat2r - Real.sin lat1r * Real.cos lat2r * Real.cos dlon
  let initial_bearing := Complex.arg ⟨y, x⟩
  let degs := initial_bearing * (180 / Real.pi)
  pythonMod (degs + 360) 360

/-- `MushroomTrackDetector.analyze_gpx`, downstream of file decoding:
parse (sort), compute metrics, score. -/
noncomputable def analyze_gpx (g : Geo) (cfg : Config) (pts : List TrackPoint) :
    Option (ℝ × ComponentScores × TrackMetrics) :=
  match calculate_metrics g cfg (parse_gpx pts) with
  | none => none
  | some (m, _) => (calculate_mushroom_score cfg m).map fun ts => (ts.1, ts.2, m)

/-- Modelled from the spec (for refinement comparison, following §4.2/§4.3
word for word): the per-segment instantaneous speed
`distance_to_next / time_to_next` in km/h, one value per consecutive pair of
points, a segment with zero or negative elapsed time contributing 0. -/
def specSegmentSpeeds (g : Geo) : List TrackPoint → List ℚ
  | p :: q :: rest =>
    (if 0 < q.timeAbs - p.timeAbs then g.dist p q / ((q.timeAbs - p.timeAbs) / 3600) else 0) ::
      specSegmentSpeeds g (q :: rest)
  | _ => []

/-- The sum of the nine configured weights. -/
def weightSum (w : Weights) : ℚ :=
  w.tortuosity + w.avg_speed + w.direction_changes + w.stops + w.season + w.daytime +
    w.duration + w.altitude_variability + w.spatial_density

/-- All nine weights non-negative. -/
def nonnegWeights (w : Weights) : Prop :=
  0 ≤ w.tortuosity ∧ 0 ≤ w.avg_speed ∧ 0 ≤ w.direction_changes ∧ 0 ≤ w.stops ∧
    0 ≤ w.season ∧ 0 ≤ w.daytime ∧ 0 ≤ w.duration ∧ 0 ≤ w.altitude_variability ∧
    0 ≤ w.spatial_density

/-- Witness geometry for C3: one-dimensional longitude distance, a true
metric. -/
def c3geo : Geo :=
  { dist := fun p q => |q.longitude - p.longitude|, bearing := fun _ _ => 0 }

/-! ## General lemmas -/

/-- Python `%` with a positive modulus is non-negative. -/
lemma pythonMod_nonneg {α : Type} [LinearOrderedField α] [FloorRing α] {a b : α}
    (hb : 0 < b) : 0 ≤ pythonMod a b := by
  unfold pythonMod
  have h1 : (⌊a / b⌋ : α) ≤ a / b := Int.floor_le _
  have h2 : b * (⌊a / b⌋ : α) ≤ b * (a / b) := mul_le_mul_of_nonneg_left h1 hb.le
  have h3 : b * (a / b) = a := by field_simp
  linarith

/-- Python `%` with a positive modulus is below the modulus. -/
lemma pythonMod_lt {α : Type} [LinearOrderedField α] [FloorRing α] {a b : α}
    (hb : 0 < b) : pythonMod a b < b := by
  unfold pythonMod
  have h1 : a / b < (⌊a / b⌋ : α) + 1 := Int.lt_floor_add_one _
  have h2 : a / b * b < ((⌊a / b⌋ : α) + 1) * b := mul_lt_mul_of_pos_right h1 hb
  have h3 : a / b * b = a := div_mul_cancel₀ a hb.ne'
  nlinarith

/-- Counting fold: incrementing an accumulator on a predicate is `countP`. -/
lemma foldl_if_count {β : Type} (p : β → Bool) :
    ∀ (l : List β) (n : ℕ),
      l.foldl (fun acc x => if p x then acc + 1 else acc) n = n + l.countP p := by
  intro l
  induction l with
  | nil => simp
  | cons x xs ih =>
    intro n
    cases h : p x
    · simp [List.countP_cons, h, ih]
    · simp [List.countP_cons, h, ih]
      omega

/-- Two folds with pointwise-equal step functions agree. -/
lemma foldl_fun_congr {α β : Type} (f g : α → β → α) (h : ∀ a b, f a b = g a b) :
    ∀ (l : List β) (init : α), List.foldl f init l = List.foldl g init l := by
  intro l
  induction l with
  | nil => intro init; rfl
  | cons x xs ih => intro init; simp only [List.foldl_cons, h, ih]

/-- A fold of `stopStep` over rows whose speed is all below the threshold
never touches the counter. -/
lemma foldl_stopStep_all_slow (thr minDur : ℚ) :
    ∀ (l : List (ℚ × ℚ)) (s : StopState), (∀ x ∈ l, x.1 < thr) →
      (List.foldl (stopStep thr minDur) s l).stop_count = s.stop_count := by
  intro l
  induction l with
  | nil => intro s _; rfl
  | cons x xs ih =>
    intro s hall
    have hx : x.1 < thr := hall x (List.mem_cons_self x xs)
    simp only [List.foldl_cons, stopStep, if_pos hx]
    exact ih _ fun y hy => hall y (List.mem_cons_of_mem x hy)

/-- Lowering `min_stop_duration` cannot lower the counter: folds from aligned
states stay ordered. -/
lemma foldl_stopStep_mono (thr d1 d2 : ℚ) (hd : d1 ≤ d2) :
    ∀ (l : List (ℚ × ℚ)) (s1 s2 : StopState),
      s1.in_stop = s2.in_stop → s1.stop_duration = s2.stop_duration →
      s2.stop_count ≤ s1.stop_count →
      (List.foldl (stopStep thr d2) s2 l).stop_count ≤
        (List.foldl (stopStep thr d1) s1 l).stop_count := by
  intro l
  induction l with
  | nil => intro s1 s2 _ _ hc; exact hc
  | cons x xs ih =>
    intro s1 s2 hin hdur hc
    simp only [List.foldl_cons]
    by_cases hx : x.1 < thr
    · exact ih _ _ (by simp [stopStep, if_pos hx]) (by simp [stopStep, if_pos hx, hdur])
        (by simp [stopStep, if_pos hx, hc])
    · apply ih _ _ (by simp [stopStep, if_neg hx]) (by simp [stopStep, if_neg hx])
      simp only [stopStep, if_neg hx]
      by_cases h2 : s2.in_stop = true ∧ d2 ≤ s2.stop_duration
      · have h1 : s1.in_stop = true ∧ d1 ≤ s1.stop_duration :=
          ⟨hin.trans h2.1, le_trans hd (hdur ▸ h2.2)⟩
        simp only [if_pos h1, if_pos h2]
        omega
      · simp only [if_neg h2]
        split <;> omega

/-- The stop counter of a singleton zero-speed row is zero, whatever the
thresholds. -/
lemma stopCountOf_single_zero (thr minDur : ℚ) : stopCountOf thr minDur [0] [0] = 0 := by
  unfold stopCountOf stopStep
  by_cases h : (0 : ℚ) < thr
  · simp [h]
  · simp [h]

/-! ## C1 — length validation -/

/-- C1 counterexample: a one-point series is NOT rejected — `calculate_metrics`
runs to completion and returns a (degenerate) `TrackMetrics`, so the engine
does not fail fast on series of length < 2. -/
theorem c1_counterexample :
    (calculate_metrics ⟨fun _ _ => 0, fun _ _ => 0⟩ default_config
        (dfOf [⟨0, 0, 100, 0, 10, 36000⟩])).isSome = true := rfl

/-- C1 amended: the engine performs no length validation.  An empty series
fails only with the index error of `df.iloc[0]`; a one-point series is
silently scored with degenerate metrics (`total_distance = 0`,
`straight_line_distance = 0`, `tortuosity_index = 1`, `stop_count = 0`,
`avg_speed = 0`, and a NaN `speed_std`). -/
theorem c1_no_length_validation (g : Geo) (cfg : Config) (p : TrackPoint)
    (hself : g.dist p p = 0) :
    calculate_metrics g cfg (dfOf []) = none ∧
    ∃ m df2, calculate_metrics g cfg (dfOf [p]) = some (m, df2) ∧
      m.total_distance = 0 ∧ m.straight_line_distance = 0 ∧ m.tortuosity_index = 1 ∧
      m.stop_count = 0 ∧ m.avg_speed = 0 ∧ m.speed_std = none := by
  constructor
  · rfl
  · refine ⟨metricsOf g cfg p [], withColumns g (dfOf [p]), rfl, ?_, ?_, ?_, ?_, ?_, ?_⟩
    · rfl
    · exact hself
    · show (if 0 < g.dist p (lastOf p []) then _ else (1 : ℚ)) = 1
      rw [show lastOf p [] = p from rfl, hself]
      norm_num
    · show stopCountOf cfg.stop_speed_threshold cfg.min_stop_duration
          (speedColumn g [p]) (timeDiffs [p]) = 0
      rw [show speedColumn g [p] = [0] from by
          norm_num [speedColumn, distDiffs, pairDistances, timeDiffs, speedOf],
        show timeDiffs [p] = [0] from by norm_num [timeDiffs]]
      exact stopCountOf_single_zero _ _
    · show meanQ (speedColumn g [p]) = 0
      rw [show speedColumn g [p] = [0] from by
        norm_num [speedColumn, distDiffs, pairDistances, timeDiffs, speedOf]]
      norm_num [meanQ]
    · show sampleStd (speedColumn g [p]) = none
      rw [show speedColumn g [p] = [0] from by
        norm_num [speedColumn, distDiffs, pairDistances, timeDiffs, speedOf]]
      simp [sampleStd]

/-- Witness for C1 amended, at a concrete geometry and point. -/
theorem c1_witness :
    calculate_metrics ⟨fun _ _ => 0, fun _ _ => 0⟩ default_config (dfOf []) = none ∧
    ∃ m df2,
      calculate_metrics ⟨fun _ _ => 0, fun _ _ => 0⟩ default_config
          (dfOf [⟨0, 0, 100, 0, 10, 36000⟩]) = some (m, df2) ∧
      m.total_distance = 0 ∧ m.straight_line_distance = 0 ∧ m.tortuosity_index = 1 ∧
      m.stop_count = 0 ∧ m.avg_speed = 0 ∧ m.speed_std = none :=
  c1_no_length_validation ⟨fun _ _ => 0, fun _ _ => 0⟩ default_config
    ⟨0, 0, 100, 0, 10, 36000⟩ rfl

/-! ## C4 — stop-episode boundary policy -/

/-- C4: the stop counter increments only on a row whose speed is at or above
`stop_speed_threshold`, reached while `in_stop` with an accumulated duration
of at least `min_stop_duration` (so an episode still open at the end of the
series is never counted), and a series whose speeds stay below the threshold
throughout yields `stop_count = 0`. -/
theorem c4_stop_boundary :
    (∀ (thr minDur : ℚ) (s : StopState) (x : ℚ × ℚ),
        (stopStep thr minDur s x).stop_count ≠ s.stop_count →
          thr ≤ x.1 ∧ s.in_stop = true ∧ minDur ≤ s.stop_duration ∧
          (stopStep thr minDur s x).stop_count = s.stop_count + 1) ∧
    (∀ (g : Geo) (cfg : Config) (df : DataFrame) (m : TrackMetrics) (df2 : DataFrame),
        calculate_metrics g cfg df = some (m, df2) →
        (∀ v ∈ speedColumn g df.rows, v < cfg.stop_speed_threshold) →
        m.stop_count = 0) := by
  constructor
  · intro thr minDur s x hne
    unfold stopStep at hne ⊢
    by_cases hx : x.1 < thr
    · simp [if_pos hx] at hne
    · by_cases hc : s.in_stop = true ∧ minDur ≤ s.stop_duration
      · exact ⟨not_lt.mp hx, hc.1, hc.2, by simp [if_neg hx, if_pos hc]⟩
      · simp [if_neg hx, if_neg hc] at hne
  · intro g cfg df m df2 h hall
    rcases hr : df.rows with _ | ⟨p0, rest⟩
    · simp [calculate_metrics, hr] at h
    · simp only [calculate_metrics, hr] at h
      obtain ⟨hm, -⟩ := Prod.mk.injEq .. ▸ Option.some.injEq .. ▸ h
      subst hm
      show stopCountOf cfg.stop_speed_threshold cfg.min_stop_duration
        (speedColumn g (p0 :: rest)) (timeDiffs (p0 :: rest)) = 0
      unfold stopCountOf
      apply foldl_stopStep_all_slow
      intro x hx
      exact hall x.1 (hr ▸ (List.of_mem_zip hx).1)

/-- Witness for C4 at a concrete three-point all-slow series. -/
theorem c4_witness :
    ∃ m df2,
      calculate_metrics ⟨fun _ _ => 0, fun _ _ => 0⟩ default_config
          (dfOf [⟨0, 0, 100, 0, 10, 36000⟩, ⟨0, 1/1000, 100, 65, 10, 36065⟩,
                 ⟨0, 2/1000, 100, 130, 10, 36130⟩]) = some (m, df2) ∧
      m.stop_count = 0 := by
  refine ⟨metricsOf ⟨fun _ _ => 0, fun _ _ => 0⟩ default_config ⟨0, 0, 100, 0, 10, 36000⟩
      [⟨0, 1/1000, 100, 65, 10, 36065⟩, ⟨0, 2/1000, 100, 130, 10, 36130⟩],
    withColumns ⟨fun _ _ => 0, fun _ _ => 0⟩
      (dfOf [⟨0, 0, 100, 0, 10, 36000⟩, ⟨0, 1/1000, 100, 65, 10, 36065⟩,
             ⟨0, 2/1000, 100, 130, 10, 36130⟩]), rfl, ?_⟩
  apply c4_stop_boundary.2 ⟨fun _ _ => 0, fun _ _ => 0⟩ default_config
    (dfOf [⟨0, 0, 100, 0, 10, 36000⟩, ⟨0, 1/1000, 100, 65, 10, 36065⟩,
           ⟨0, 2/1000, 100, 130, 10, 36130⟩]) _ _ rfl
  intro v hv
  have hs : speedColumn ⟨fun _ _ => 0, fun _ _ => 0⟩
      (dfOf [⟨0, 0, 100, 0, 10, 36000⟩, ⟨0, 1/1000, 100, 65, 10, 36065⟩,
             ⟨0, 2/1000, 100, 130, 10, 36130⟩]).rows = [0, 0, 0] := by
    norm_num [speedColumn, distDiffs, pairDistances, timeDiffs, speedOf, dfOf]
  rw [hs] at hv
  have hv0 : v = 0 := by simpa using hv
  rw [hv0]
  norm_num [default_config]

/-! ## C6 — monotonicity in min_stop_duration -/

/-- C6: holding the series, the geometry and every other configuration option
fixed, lowering `min_stop_duration` cannot lower the stop count: if
`cfg.min_stop_duration ≤ d2` then the count computed with `d2` is at most the
count computed with `cfg.min_stop_duration`. -/
theorem c6_stop_count_monotone (g : Geo) (cfg : Config) (d2 : ℚ) (df : DataFrame)
    (m1 m2 : TrackMetrics) (df1 df2 : DataFrame)
    (hle : cfg.min_stop_duration ≤ d2)
    (h1 : calculate_metrics g cfg df = some (m1, df1))
    (h2 : calculate_metrics g { cfg with min_stop_duration := d2 } df = some (m2, df2)) :
    m2.stop_count ≤ m1.stop_count := by
  rcases hr : df.rows with _ | ⟨p0, rest⟩
  · simp [calculate_metrics, hr] at h1
  · simp only [calculate_metrics, hr] at h1 h2
    obtain ⟨hm1, -⟩ := Prod.mk.injEq .. ▸ Option.some.injEq .. ▸ h1
    obtain ⟨hm2, -⟩ := Prod.mk.injEq .. ▸ Option.some.injEq .. ▸ h2
    subst hm1; subst hm2
    show stopCountOf cfg.stop_speed_threshold d2 _ _ ≤
      stopCountOf cfg.stop_speed_threshold cfg.min_stop_duration _ _
    unfold stopCountOf
    exact foldl_stopStep_mono _ _ _ hle _ _ _ rfl rfl le_rfl

/-- Witness for C6 at a concrete series and pair of durations. -/
theorem c6_witness :
    ∃ m1 m2 df1 df2,
      calculate_metrics ⟨fun _ _ => 0, fun _ _ => 0⟩ default_config
          (dfOf [⟨0, 0, 100, 0, 10, 36000⟩, ⟨0, 1/1000, 100, 65, 10, 36065⟩]) =
        some (m1, df1) ∧
      calculate_metrics ⟨fun _ _ => 0, fun _ _ => 0⟩
          { default_config with min_stop_duration := 120 }
          (dfOf [⟨0, 0, 100, 0, 10, 36000⟩, ⟨0, 1/1000, 100, 65, 10, 36065⟩]) =
        some (m2, df2) ∧
      m2.stop_count ≤ m1.stop_count := by
  refine ⟨metricsOf ⟨fun _ _ => 0, fun _ _ => 0⟩ default_config ⟨0, 0, 100, 0, 10, 36000⟩
      [⟨0, 1/1000, 100, 65, 10, 36065⟩],
    metricsOf ⟨fun _ _ => 0, fun _ _ => 0⟩ { default_config with min_stop_duration := 120 }
      ⟨0, 0, 100, 0, 10, 36000⟩ [⟨0, 1/1000, 100, 65, 10, 36065⟩],
    withColumns ⟨fun _ _ => 0, fun _ _ => 0⟩
      (dfOf [⟨0, 0, 100, 0, 10, 36000⟩, ⟨0, 1/1000, 100, 65, 10, 36065⟩]),
    withColumns ⟨fun _ _ => 0, fun _ _ => 0⟩
      (dfOf [⟨0, 0, 100, 0, 10, 36000⟩, ⟨0, 1/1000, 100, 65, 10, 36065⟩]),
    rfl, rfl, ?_⟩
  exact c6_stop_count_monotone ⟨fun _ _ => 0, fun _ _ => 0⟩ default_config 120
    (dfOf [⟨0, 0, 100, 0, 10, 36000⟩, ⟨0, 1/1000, 100, 65, 10, 36065⟩]) _ _ _ _
    (by norm_num [default_config]) rfl rfl

/-! ## C10 — totality and range of the bearing function -/

/-- C10: `_calculate_bearing` is total: on two identical points it returns 0
(`math.atan2(0, 0) = 0`, modelled by `Complex.arg 0 = 0`) rather than raising,
and for any pair of points the returned compass bearing lies in `[0, 360)`. -/
theorem c10_bearing_total_and_in_range :
    (∀ lat1 lon1 lat2 lon2 : ℝ,
        0 ≤ calculate_bearing lat1 lon1 lat2 lon2 ∧
          calculate_bearing lat1 lon1 lat2 lon2 < 360) ∧
    (∀ lat lon : ℝ, calculate_bearing lat lon lat lon = 0) := by
  constructor
  · intro lat1 lon1 lat2 lon2
    constructor
    · exact pythonMod_nonneg (by norm_num)
    · exact pythonMod_lt (by norm_num)
  · intro lat lon
    have hz : (⟨Real.cos (lat * (Real.pi / 180)) * Real.sin (lat * (Real.pi / 180)) -
        Real.sin (lat * (Real.pi / 180)) * Real.cos (lat * (Real.pi / 180)) *
          Real.cos (lon * (Real.pi / 180) - lon * (Real.pi / 180)),
        Real.sin (lon * (Real.pi / 180) - lon * (Real.pi / 180)) *
          Real.cos (lat * (Real.pi / 180))⟩ : ℂ) = 0 := by
      simp only [sub_self, Real.cos_zero, Real.sin_zero, mul_one, zero_mul, Complex.ext_iff,
        Complex.zero_re, Complex.zero_im, and_true]
      ring
    simp only [calculate_bearing]
    rw [hz, Complex.arg_zero, zero_mul, zero_add]
    unfold pythonMod
    rw [div_self (by norm_num : (360 : ℝ) ≠ 0), Int.floor_one]
    norm_num

/-! ## C8 — angular delta and direction-change counting -/

/-- Bearing due east along the equator: from (0°, 0°) to (0°, 1°) the code
returns exactly 90. -/
lemma bearing_east : calculate_bearing 0 0 0 1 = 90 := by
  have key : ∀ s : ℝ, 0 < s →
      pythonMod (Complex.arg ⟨0, s⟩ * (180 / Real.pi) + 360) 360 = 90 := by
    intro s hs
    rw [show Complex.arg ⟨0, s⟩ = Real.pi / 2 from Complex.arg_eq_pi_div_two_iff.mpr ⟨rfl, hs⟩]
    rw [show Real.pi / 2 * (180 / Real.pi) = 90 from by
      field_simp
      ring]
    unfold pythonMod
    rw [show (90 : ℝ) + 360 = 450 from by norm_num,
      show (450 : ℝ) / 360 = 5 / 4 from by norm_num,
      show ⌊(5 / 4 : ℝ)⌋ = 1 from Int.floor_eq_iff.mpr (by norm_num)]
    norm_num
  simp only [calculate_bearing]
  rw [show (⟨Real.cos (0 * (Real.pi / 180)) * Real.sin (0 * (Real.pi / 180)) -
      Real.sin (0 * (Real.pi / 180)) * Real.cos (0 * (Real.pi / 180)) *
        Real.cos (1 * (Real.pi / 180) - 0 * (Real.pi / 180)),
      Real.sin (1 * (Real.pi / 180) - 0 * (Real.pi / 180)) *
        Real.cos (0 * (Real.pi / 180))⟩ : ℂ) = ⟨0, Real.sin (Real.pi / 180)⟩ from by
    rw [Complex.mk.injEq]
    norm_num [Real.sin_zero, Real.cos_zero]]
  exact key _ (Real.sin_pos_of_pos_of_lt_pi (by positivity)
    (div_lt_self Real.pi_pos (by norm_num)))

/-- Bearing due west along the equator: from (0°, 1°) to (0°, 0°) the code
returns exactly 270. -/
lemma bearing_west : calculate_bearing 0 1 0 0 = 270 := by
  have key : ∀ s : ℝ, s < 0 →
      pythonMod (Complex.arg ⟨0, s⟩ * (180 / Real.pi) + 360) 360 = 270 := by
    intro s hs
    rw [show Complex.arg ⟨0, s⟩ = -(Real.pi / 2) from
      Complex.arg_eq_neg_pi_div_two_iff.mpr ⟨rfl, hs⟩]
    rw [show -(Real.pi / 2) * (180 / Real.pi) = -90 from by
      field_simp
      ring]
    unfold pythonMod
    rw [show (-90 : ℝ) + 360 = 270 from by norm_num,
      show (270 : ℝ) / 360 = 3 / 4 from by norm_num,
      show ⌊(3 / 4 : ℝ)⌋ = 0 from Int.floor_eq_iff.mpr (by norm_num)]
    norm_num
  simp only [calculate_bearing]
  rw [show (⟨Real.cos (0 * (Real.pi / 180)) * Real.sin (0 * (Real.pi / 180)) -
      Real.sin (0 * (Real.pi / 180)) * Real.cos (0 * (Real.pi / 180)) *
        Real.cos (0 * (Real.pi / 180) - 1 * (Real.pi / 180)),
      Real.sin (0 * (Real.pi / 180) - 1 * (Real.pi / 180)) *
        Real.cos (0 * (Real.pi / 180))⟩ : ℂ) = ⟨0, -Real.sin (Real.pi / 180)⟩ from by
    rw [Complex.mk.injEq]
    constructor
    · norm_num [Real.sin_zero, Real.cos_zero]
    · rw [show 0 * (Real.pi / 180) - 1 * (Real.pi / 180) = -(Real.pi / 180) from by ring,
        Real.sin_neg]
      norm_num]
  have hsin : 0 < Real.sin (Real.pi / 180) :=
    Real.sin_pos_of_pos_of_lt_pi (by positivity) (div_lt_self Real.pi_pos (by norm_num))
  exact key _ (neg_lt_zero.mpr hsin)

/-- C8 counterexample: on the concrete track (0°,0°) → (0°,1°) → (0°,0°)
(due east, then due west) the code's signed angular delta is exactly −180,
which does not lie in the claimed interval (−180, 180]. -/
theorem c8_counterexample :
    signedDelta (calculate_bearing 0 0 0 1) (calculate_bearing 0 1 0 0) = -180 ∧
    signedDelta (calculate_bearing 0 0 0 1) (calculate_bearing 0 1 0 0) ∉
      Set.Ioc (-180 : ℝ) 180 := by
  have h : signedDelta (calculate_bearing 0 0 0 1) (calculate_bearing 0 1 0 0) = -180 := by
    rw [bearing_east, bearing_west]
    unfold signedDelta pythonMod
    rw [show (270 : ℝ) - 90 + 180 = 360 from by norm_num,
      div_self (by norm_num : (360 : ℝ) ≠ 0), Int.floor_one]
    norm_num
  refine ⟨h, ?_⟩
  rw [h]
  simp [Set.mem_Ioc]

/-- C8 amended: the signed angular delta
`Δ = ((bearing_out − bearing_in + 180) mod 360) − 180` lies in the interval
[−180, 180) (the spec's half-open interval is reversed: −180 is attainable,
+180 is not), and the direction-change counter counts exactly the interior
points both of whose adjacent segment distances are positive and whose
absolute delta exceeds the threshold — zero-distance segments are excluded
from bearing evaluation. -/
theorem c8_delta_range_and_counting :
    (∀ b1 b2 : ℝ, -180 ≤ signedDelta b1 b2 ∧ signedDelta b1 b2 < 180) ∧
    (∀ (g : Geo) (thr : ℚ) (rows : List TrackPoint),
      directionChangeCount g thr rows = (triples rows).countP fun t =>
        decide (0 < g.dist t.2.1 t.2.2) && decide (0 < g.dist t.1 t.2.1) &&
          decide (thr < angleChange (g.bearing t.1 t.2.1) (g.bearing t.2.1 t.2.2))) := by
  constructor
  · intro b1 b2
    unfold signedDelta
    have h1 : 0 ≤ pythonMod (b2 - b1 + 180) (360 : ℝ) := pythonMod_nonneg (by norm_num)
    have h2 : pythonMod (b2 - b1 + 180) (360 : ℝ) < 360 := pythonMod_lt (by norm_num)
    constructor
    · linarith
    · linarith
  · intro g thr rows
    unfold directionChangeCount
    have hpt : ∀ (acc : ℕ) (t : TrackPoint × TrackPoint × TrackPoint),
        (if 0 < g.dist t.2.1 t.2.2 ∧ 0 < g.dist t.1 t.2.1 then
          if thr < angleChange (g.bearing t.1 t.2.1) (g.bearing t.2.1 t.2.2) then acc + 1
          else acc
         else acc) =
        (if (decide (0 < g.dist t.2.1 t.2.2) && decide (0 < g.dist t.1 t.2.1) &&
            decide (thr < angleChange (g.bearing t.1 t.2.1) (g.bearing t.2.1 t.2.2))) = true
         then acc + 1 else acc) := by
      intro acc t
      by_cases h1 : 0 < g.dist t.2.1 t.2.2
      · by_cases h2 : 0 < g.dist t.1 t.2.1
        · by_cases h3 : thr < angleChange (g.bearing t.1 t.2.1) (g.bearing t.2.1 t.2.2)
          · simp [h1, h2, h3]
          · simp [h1, h2, h3]
        · simp [h1, h2]
      · simp [h1]
    rw [foldl_fun_congr _ _ hpt, foldl_if_count]
    exact Nat.zero_add _

/-! ## C3 — tortuosity index -/

/-- Chained triangle inequality: the straight-line distance from the first to
the last point is at most the sum of the consecutive pairwise distances. -/
lemma dist_head_last_le_sum (g : Geo)
    (htri : ∀ a b c, g.dist a c ≤ g.dist a b + g.dist b c)
    (hself : ∀ p, g.dist p p = 0) :
    ∀ (rest : List TrackPoint) (p0 : TrackPoint),
      g.dist p0 (lastOf p0 rest) ≤ (pairDistances g (p0 :: rest)).sum := by
  intro rest
  induction rest with
  | nil =>
    intro p0
    have h1 : lastOf p0 [] = p0 := rfl
    have h2 : pairDistances g [p0] = [] := rfl
    rw [h1, h2, List.sum_nil, hself]
  | cons q rest2 ih =>
    intro p0
    have h1 : lastOf p0 (q :: rest2) = lastOf q rest2 := rfl
    have h2 : pairDistances g (p0 :: q :: rest2) =
        g.dist p0 q :: pairDistances g (q :: rest2) := rfl
    rw [h1, h2, List.sum_cons]
    calc g.dist p0 (lastOf q rest2) ≤ g.dist p0 q + g.dist q (lastOf q rest2) :=
        htri p0 q (lastOf q rest2)
      _ ≤ g.dist p0 q + (pairDistances g (q :: rest2)).sum := by linarith [ih q]

/-- C3: on every series the engine accepts, the tortuosity index equals
`total_distance / straight_line_distance` and is at least 1 whenever the
straight-line distance is positive (the geodesic being a metric:
non-negative on the diagonal and satisfying the triangle inequality), and it
is exactly 1 when the straight-line distance is 0 (fallback, not an error). -/
theorem c3_tortuosity (g : Geo) (cfg : Config) (df : DataFrame) (m : TrackMetrics)
    (df2 : DataFrame)
    (hself : ∀ p, g.dist p p = 0)
    (htri : ∀ a b c, g.dist a c ≤ g.dist a b + g.dist b c)
    (h : calculate_metrics g cfg df = some (m, df2)) :
    (0 < m.straight_line_distance →
      m.tortuosity_index = m.total_distance / m.straight_line_distance ∧
        1 ≤ m.tortuosity_index) ∧
    (m.straight_line_distance = 0 → m.tortuosity_index = 1) := by
  rcases hr : df.rows with _ | ⟨p0, rest⟩
  · simp [calculate_metrics, hr] at h
  · simp only [calculate_metrics, hr] at h
    obtain ⟨hm, -⟩ := Prod.mk.injEq .. ▸ Option.some.injEq .. ▸ h
    subst hm
    have hsld : (metricsOf g cfg p0 rest).straight_line_distance =
        g.dist p0 (lastOf p0 rest) := rfl
    have htot : (metricsOf g cfg p0 rest).total_distance =
        (pairDistances g (p0 :: rest)).sum := rfl
    have htor : (metricsOf g cfg p0 rest).tortuosity_index =
        if 0 < g.dist p0 (lastOf p0 rest) then
          (pairDistances g (p0 :: rest)).sum / g.dist p0 (lastOf p0 rest)
        else 1 := rfl
    constructor
    · intro hpos
      rw [hsld] at hpos
      rw [htor, if_pos hpos, hsld, htot]
      refine ⟨rfl, ?_⟩
      rw [le_div_iff₀ hpos, one_mul]
      exact dist_head_last_le_sum g htri hself rest p0
    · intro hzero
      rw [hsld] at hzero
      rw [htor, hzero]
      norm_num

/-- Witness for C3 at a concrete two-point eastward series. -/
theorem c3_witness :
    (0 < (metricsOf c3geo default_config ⟨0, 0, 100, 0, 10, 36000⟩
        [⟨0, 1, 100, 3600, 10, 39600⟩]).straight_line_distance →
      (metricsOf c3geo default_config ⟨0, 0, 100, 0, 10, 36000⟩
          [⟨0, 1, 100, 3600, 10, 39600⟩]).tortuosity_index =
        (metricsOf c3geo default_config ⟨0, 0, 100, 0, 10, 36000⟩
            [⟨0, 1, 100, 3600, 10, 39600⟩]).total_distance /
          (metricsOf c3geo default_config ⟨0, 0, 100, 0, 10, 36000⟩
              [⟨0, 1, 100, 3600, 10, 39600⟩]).straight_line_distance ∧
        1 ≤ (metricsOf c3geo default_config ⟨0, 0, 100, 0, 10, 36000⟩
            [⟨0, 1, 100, 3600, 10, 39600⟩]).tortuosity_index) ∧
    ((metricsOf c3geo default_config ⟨0, 0, 100, 0, 10, 36000⟩
        [⟨0, 1, 100, 3600, 10, 39600⟩]).straight_line_distance = 0 →
      (metricsOf c3geo default_config ⟨0, 0, 100, 0, 10, 36000⟩
          [⟨0, 1, 100, 3600, 10, 39600⟩]).tortuosity_index = 1) :=
  c3_tortuosity c3geo default_config
    (dfOf [⟨0, 0, 100, 0, 10, 36000⟩, ⟨0, 1, 100, 3600, 10, 39600⟩]) _ _
    (fun p => by simp [c3geo])
    (fun a b c => by
      show |c.longitude - a.longitude| ≤ |b.longitude - a.longitude| + |c.longitude - b.longitude|
      rw [abs_sub_comm c.longitude a.longitude, abs_sub_comm b.longitude a.longitude,
        abs_sub_comm c.longitude b.longitude]
      exact abs_sub_le _ _ _)
    rfl

/-! ## C9 — the engine mutates its input frame -/

/-- C9 counterexample: computing metrics does NOT leave the input unchanged —
on a concrete two-point frame the post-state frame returned by
`calculate_metrics` differs from the input frame (it has gained the derived
`speed_kmh` column). -/
theorem c9_counterexample :
    ∃ m df2,
      calculate_metrics ⟨fun _ _ => 0, fun _ _ => 0⟩ default_config
          (dfOf [⟨0, 0, 100, 0, 10, 36000⟩, ⟨0, 1/1000, 100, 65, 10, 36065⟩]) =
        some (m, df2) ∧
      df2 ≠ dfOf [⟨0, 0, 100, 0, 10, 36000⟩, ⟨0, 1/1000, 100, 65, 10, 36065⟩] := by
  refine ⟨metricsOf ⟨fun _ _ => 0, fun _ _ => 0⟩ default_config ⟨0, 0, 100, 0, 10, 36000⟩
      [⟨0, 1/1000, 100, 65, 10, 36065⟩],
    withColumns ⟨fun _ _ => 0, fun _ _ => 0⟩
      (dfOf [⟨0, 0, 100, 0, 10, 36000⟩, ⟨0, 1/1000, 100, 65, 10, 36065⟩]), rfl, ?_⟩
  intro hcon
  have hsp := congrArg DataFrame.speed_kmh hcon
  simp [withColumns, dfOf] at hsp

/-- C9 amended: `calculate_metrics` writes the three derived columns
`time_diff`, `distance_diff` and `speed_kmh` into the frame it was given
(so a frame without them is genuinely modified), but the point rows
themselves — every latitude, longitude, elevation and timestamp — are left
unchanged. -/
theorem c9_rows_preserved_columns_added (g : Geo) (cfg : Config) (df : DataFrame)
    (m : TrackMetrics) (df2 : DataFrame)
    (h : calculate_metrics g cfg df = some (m, df2)) :
    df2.rows = df.rows ∧
    df2.time_diff = some (timeDiffs df.rows) ∧
    df2.distance_diff = some (distDiffs g df.rows) ∧
    df2.speed_kmh = some (speedColumn g df.rows) ∧
    (df.speed_kmh = none → df2 ≠ df) := by
  rcases hr : df.rows with _ | ⟨p0, rest⟩
  · simp [calculate_metrics, hr] at h
  · simp only [calculate_metrics, hr] at h
    obtain ⟨-, hdf⟩ := Prod.mk.injEq .. ▸ Option.some.injEq .. ▸ h
    subst hdf
    refine ⟨hr, congrArg (fun l => some (timeDiffs l)) hr,
      congrArg (fun l => some (distDiffs g l)) hr,
      congrArg (fun l => some (speedColumn g l)) hr, ?_⟩
    intro hnone hcon
    have hsp := congrArg DataFrame.speed_kmh hcon
    rw [hnone] at hsp
    simp [withColumns] at hsp

/-- Witness for C9 amended at a concrete frame. -/
theorem c9_witness :
    (withColumns ⟨fun _ _ => 0, fun _ _ => 0⟩
        (dfOf [⟨0, 0, 100, 0, 10, 36000⟩, ⟨0, 1/1000, 100, 65, 10, 36065⟩])).rows =
      (dfOf [⟨0, 0, 100, 0, 10, 36000⟩, ⟨0, 1/1000, 100, 65, 10, 36065⟩]).rows ∧
    (withColumns ⟨fun _ _ => 0, fun _ _ => 0⟩
        (dfOf [⟨0, 0, 100, 0, 10, 36000⟩, ⟨0, 1/1000, 100, 65, 10, 36065⟩])).time_diff =
      some (timeDiffs (dfOf [⟨0, 0, 100, 0, 10, 36000⟩,
        ⟨0, 1/1000, 100, 65, 10, 36065⟩]).rows) ∧
    (withColumns ⟨fun _ _ => 0, fun _ _ => 0⟩
        (dfOf [⟨0, 0, 100, 0, 10, 36000⟩, ⟨0, 1/1000, 100, 65, 10, 36065⟩])).distance_diff =
      some (distDiffs ⟨fun _ _ => 0, fun _ _ => 0⟩
        (dfOf [⟨0, 0, 100, 0, 10, 36000⟩, ⟨0, 1/1000, 100, 65, 10, 36065⟩]).rows) ∧
    (withColumns ⟨fun _ _ => 0, fun _ _ => 0⟩
        (dfOf [⟨0, 0, 100, 0, 10, 36000⟩, ⟨0, 1/1000, 100, 65, 10, 36065⟩])).speed_kmh =
      some (speedColumn ⟨fun _ _ => 0, fun _ _ => 0⟩
        (dfOf [⟨0, 0, 100, 0, 10, 36000⟩, ⟨0, 1/1000, 100, 65, 10, 36065⟩]).rows) ∧
    ((dfOf [⟨0, 0, 100, 0, 10, 36000⟩, ⟨0, 1/1000, 100, 65, 10, 36065⟩]).speed_kmh = none →
      withColumns ⟨fun _ _ => 0, fun _ _ => 0⟩
          (dfOf [⟨0, 0, 100, 0, 10, 36000⟩, ⟨0, 1/1000, 100, 65, 10, 36065⟩]) ≠
        dfOf [⟨0, 0, 100, 0, 10, 36000⟩, ⟨0, 1/1000, 100, 65, 10, 36065⟩]) :=
  c9_rows_preserved_columns_added ⟨fun _ _ => 0, fun _ _ => 0⟩ default_config
    (dfOf [⟨0, 0, 100, 0, 10, 36000⟩, ⟨0, 1/1000, 100, 65, 10, 36065⟩])
    (metricsOf ⟨fun _ _ => 0, fun _ _ => 0⟩ default_config ⟨0, 0, 100, 0, 10, 36000⟩
      [⟨0, 1/1000, 100, 65, 10, 36065⟩])
    (withColumns ⟨fun _ _ => 0, fun _ _ => 0⟩
      (dfOf [⟨0, 0, 100, 0, 10, 36000⟩, ⟨0, 1/1000, 100, 65, 10, 36065⟩]))
    rfl

/-! ## C7 — sorting normalization -/

/-- A list that is a permutation of a strictly time-sorted list and is itself
weakly time-sorted equals that list. -/
lemma eq_of_perm_of_strictSorted :
    ∀ l2 : List TrackPoint, l2.Pairwise (fun a b => a.timeAbs < b.timeAbs) →
      ∀ l1 : List TrackPoint, List.Perm l1 l2 →
        l1.Pairwise (fun a b => a.timeAbs ≤ b.timeAbs) → l1 = l2 := by
  intro l2
  induction l2 with
  | nil =>
    intro _ l1 hp _
    exact List.perm_nil.mp hp
  | cons b t ih =>
    intro hs2 l1 hp hs1
    cases l1 with
    | nil => exact absurd (List.perm_nil.mp hp.symm) (List.cons_ne_nil b t)
    | cons a t1 =>
      have hab : a = b := by
        by_contra hne
        have ha : a ∈ t := by
          rcases List.mem_cons.mp (hp.mem_iff.mp (List.mem_cons_self a t1)) with h | h
          · exact absurd h hne
          · exact h
        have hb : b ∈ t1 := by
          rcases List.mem_cons.mp (hp.mem_iff.mpr (List.mem_cons_self b t)) with h | h
          · exact absurd h.symm hne
          · exact h
        have h1 : b.timeAbs < a.timeAbs := (List.pairwise_cons.mp hs2).1 a ha
        have h2 : a.timeAbs ≤ b.timeAbs := (List.pairwise_cons.mp hs1).1 b hb
        exact absurd h1 (not_lt.mpr h2)
      subst hab
      have ht : t1 = t :=
        ih (List.pairwise_cons.mp hs2).2 t1 hp.cons_inv (List.pairwise_cons.mp hs1).2
      rw [ht]

/-- The engine's sort recovers the strictly sorted order from any permutation
of it. -/
lemma sortByTime_eq (pts s : List TrackPoint) (hperm : List.Perm pts s)
    (hs : s.Pairwise fun a b => a.timeAbs < b.timeAbs) : sortByTime pts = s := by
  apply eq_of_perm_of_strictSorted s hs
  · exact (List.mergeSort_perm pts _).trans hperm
  · have hsorted : (List.mergeSort pts fun a b => decide (a.timeAbs ≤ b.timeAbs)).Pairwise
        (fun a b => decide (a.timeAbs ≤ b.timeAbs) = true) :=
      List.sorted_mergeSort
        (fun a b c hab hbc => by
          simp only [decide_eq_true_eq] at hab hbc ⊢
          exact le_trans hab hbc)
        (fun a b => by
          simp only [Bool.or_eq_true, decide_eq_true_eq]
          exact le_total a.timeAbs b.timeAbs)
        pts
    exact hsorted.imp fun h => of_decide_eq_true h

/-- C7: for any input sequence that is a permutation of a (strictly)
timestamp-sorted sequence, the engine sorts it before computing anything —
`parse_gpx` yields exactly the sorted frame — and the final analysis result
equals the result for the pre-sorted equivalent sequence.  (Strictness makes
"the pre-sorted equivalent" well defined: with duplicate timestamps there is
no unique sorted equivalent.) -/
theorem c7_sorts_before_computing (g : Geo) (cfg : Config) (pts s : List TrackPoint)
    (hperm : List.Perm pts s) (hs : s.Pairwise fun a b => a.timeAbs < b.timeAbs) :
    sortByTime pts = s ∧
    parse_gpx pts = dfOf s ∧
    analyze_gpx g cfg pts = analyze_gpx g cfg s := by
  have h1 : sortByTime pts = s := sortByTime_eq pts s hperm hs
  have h2 : sortByTime s = s := sortByTime_eq s s (List.Perm.refl s) hs
  refine ⟨h1, ?_, ?_⟩
  · unfold parse_gpx
    rw [h1]
  · unfold analyze_gpx parse_gpx
    rw [h1, h2]

/-- Witness for C7: a concrete two-point series given in reverse time order. -/
theorem c7_witness :
    sortByTime [⟨0, 1, 100, 100, 10, 36100⟩, ⟨0, 0, 100, 0, 10, 36000⟩] =
      [⟨0, 0, 100, 0, 10, 36000⟩, ⟨0, 1, 100, 100, 10, 36100⟩] ∧
    parse_gpx [⟨0, 1, 100, 100, 10, 36100⟩, ⟨0, 0, 100, 0, 10, 36000⟩] =
      dfOf [⟨0, 0, 100, 0, 10, 36000⟩, ⟨0, 1, 100, 100, 10, 36100⟩] ∧
    analyze_gpx ⟨fun _ _ => 0, fun _ _ => 0⟩ default_config
        [⟨0, 1, 100, 100, 10, 36100⟩, ⟨0, 0, 100, 0, 10, 36000⟩] =
      analyze_gpx ⟨fun _ _ => 0, fun _ _ => 0⟩ default_config
        [⟨0, 0, 100, 0, 10, 36000⟩, ⟨0, 1, 100, 100, 10, 36100⟩] :=
  c7_sorts_before_computing ⟨fun _ _ => 0, fun _ _ => 0⟩ default_config
    [⟨0, 1, 100, 100, 10, 36100⟩, ⟨0, 0, 100, 0, 10, 36000⟩]
    [⟨0, 0, 100, 0, 10, 36000⟩, ⟨0, 1, 100, 100, 10, 36100⟩]
    (List.Perm.swap (⟨0, 0, 100, 0, 10, 36000⟩ : TrackPoint)
      (⟨0, 1, 100, 100, 10, 36100⟩ : TrackPoint) ([] : List TrackPoint))
    (by
      refine List.Pairwise.cons ?_ (List.pairwise_singleton _ _)
      intro b hb
      rw [List.mem_singleton.mp hb]
      norm_num)

/-! ## C5 — what the per-row speed actually is -/

/-- Length of the `distances` list. -/
lemma pairDistances_length (g : Geo) :
    ∀ rows : List TrackPoint, (pairDistances g rows).length = rows.length - 1 := by
  intro rows
  induction rows with
  | nil => rfl
  | cons p rest ih =>
    cases rest with
    | nil => rfl
    | cons q rest2 =>
      show (g.dist p q :: pairDistances g (q :: rest2)).length = (q :: rest2).length
      rw [List.length_cons, ih]
      simp

/-- The `speed_kmh` column has one entry per row. -/
lemma speedColumn_length (g : Geo) (rows : List TrackPoint) :
    (speedColumn g rows).length = rows.length := by
  cases rows with
  | nil => rfl
  | cons p rest =>
    show (List.zipWith speedOf (distDiffs g (p :: rest)) (timeDiffs (p :: rest))).length = _
    rw [List.length_zipWith]
    have h1 : (distDiffs g (p :: rest)).length = rest.length + 1 := by
      unfold distDiffs
      rw [List.length_append, pairDistances_length]
      simp
    have h2 : (timeDiffs (p :: rest)).length = rest.length + 1 := by
      show (0 :: List.zipWith (fun b a => b.timeAbs - a.timeAbs) rest (p :: rest)).length = _
      rw [List.length_cons, List.length_zipWith]
      simp
    rw [h1, h2]
    simp

/-- The speed of every row after the first, computed with the previous point
`prev` known: the row pairs its distance TO THE NEXT point with its elapsed
time FROM THE PREVIOUS point. -/
lemma speeds_tail_getD (g : Geo) :
    ∀ (rows : List TrackPoint) (prev : TrackPoint) (i : ℕ), i + 1 < rows.length →
      (List.zipWith speedOf (distDiffs g rows)
          (List.zipWith (fun b a => b.timeAbs - a.timeAbs) rows (prev :: rows))).getD i 0 =
        (if 0 < (rows.getD i ⟨0, 0, 0, 0, 0, 0⟩).timeAbs -
            ((prev :: rows).getD i ⟨0, 0, 0, 0, 0, 0⟩).timeAbs then
          g.dist (rows.getD i ⟨0, 0, 0, 0, 0, 0⟩) (rows.getD (i + 1) ⟨0, 0, 0, 0, 0, 0⟩) /
            (((rows.getD i ⟨0, 0, 0, 0, 0, 0⟩).timeAbs -
              ((prev :: rows).getD i ⟨0, 0, 0, 0, 0, 0⟩).timeAbs) / 3600)
        else 0) := by
  intro rows
  induction rows with
  | nil =>
    intro prev i h
    exact absurd h (by simp)
  | cons p rest ih =>
    intro prev i h
    cases rest with
    | nil =>
      exact absurd h (by simp)
    | cons q rest2 =>
      have hstep : List.zipWith speedOf (distDiffs g (p :: q :: rest2))
          (List.zipWith (fun b a => b.timeAbs - a.timeAbs) (p :: q :: rest2)
            (prev :: p :: q :: rest2)) =
          speedOf (g.dist p q) (p.timeAbs - prev.timeAbs) ::
            List.zipWith speedOf (distDiffs g (q :: rest2))
              (List.zipWith (fun b a => b.timeAbs - a.timeAbs) (q :: rest2)
                (p :: q :: rest2)) := rfl
      rw [hstep]
      cases i with
      | zero =>
        simp only [List.getD_cons_zero, List.getD_cons_succ, speedOf]
      | succ j =>
        rw [List.getD_cons_succ]
        have hb : j + 1 < (q :: rest2).length := by
          simp only [List.length_cons] at h ⊢
          omega
        rw [ih p j hb]
        simp only [List.getD_cons_succ]

/-- C5 counterexample: on a concrete two-point series — a 1 km segment covered
in 3600 s via a unit distance function — the engine's `avg_speed` is 0, while
the mean of the spec's per-segment speeds (`distance_to_next / time_to_next`)
is 1 km/h: the code pairs each row's distance-to-next with its
time-from-previous, so the first row (no previous) and last row (no next)
both contribute speed 0. -/
theorem c5_counterexample :
    ∃ m df2,
      calculate_metrics ⟨fun _ _ => 1, fun _ _ => 0⟩ default_config
          (dfOf [⟨0, 0, 100, 0, 10, 36000⟩, ⟨0, 1, 100, 3600, 10, 39600⟩]) = some (m, df2) ∧
      m.avg_speed = 0 ∧
      meanQ (specSegmentSpeeds ⟨fun _ _ => 1, fun _ _ => 0⟩
        [⟨0, 0, 100, 0, 10, 36000⟩, ⟨0, 1, 100, 3600, 10, 39600⟩]) = 1 ∧
      m.avg_speed ≠ meanQ (specSegmentSpeeds ⟨fun _ _ => 1, fun _ _ => 0⟩
        [⟨0, 0, 100, 0, 10, 36000⟩, ⟨0, 1, 100, 3600, 10, 39600⟩]) := by
  have h1 : meanQ (speedColumn ⟨fun _ _ => 1, fun _ _ => 0⟩
      [⟨0, 0, 100, 0, 10, 36000⟩, ⟨0, 1, 100, 3600, 10, 39600⟩]) = 0 := by
    rw [show speedColumn ⟨fun _ _ => 1, fun _ _ => 0⟩
        [⟨0, 0, 100, 0, 10, 36000⟩, ⟨0, 1, 100, 3600, 10, 39600⟩] = [0, 0] from by
      norm_num [speedColumn, distDiffs, pairDistances, timeDiffs, speedOf]]
    norm_num [meanQ]
  have h2 : meanQ (specSegmentSpeeds ⟨fun _ _ => 1, fun _ _ => 0⟩
      [⟨0, 0, 100, 0, 10, 36000⟩, ⟨0, 1, 100, 3600, 10, 39600⟩]) = 1 := by
    norm_num [specSegmentSpeeds, meanQ]
  refine ⟨metricsOf ⟨fun _ _ => 1, fun _ _ => 0⟩ default_config ⟨0, 0, 100, 0, 10, 36000⟩
      [⟨0, 1, 100, 3600, 10, 39600⟩],
    withColumns ⟨fun _ _ => 1, fun _ _ => 0⟩
      (dfOf [⟨0, 0, 100, 0, 10, 36000⟩, ⟨0, 1, 100, 3600, 10, 39600⟩]), rfl, h1, h2, ?_⟩
  rw [show (metricsOf ⟨fun _ _ => 1, fun _ _ => 0⟩ default_config ⟨0, 0, 100, 0, 10, 36000⟩
      [⟨0, 1, 100, 3600, 10, 39600⟩]).avg_speed =
        meanQ (speedColumn ⟨fun _ _ => 1, fun _ _ => 0⟩
          [⟨0, 0, 100, 0, 10, 36000⟩, ⟨0, 1, 100, 3600, 10, 39600⟩]) from rfl, h1, h2]
  norm_num

/-- C5 amended: each ROW of the frame gets a speed, one per row; row 0
(undefined elapsed time) has speed 0; every later row pairs its distance to
the NEXT point with its elapsed time from the PREVIOUS point (0 when that
elapsed time is not positive); and `avg_speed` / `speed_std` are the mean and
the sample standard deviation of these n row speeds. -/
theorem c5_row_speed_characterization :
    (∀ (g : Geo) (rows : List TrackPoint), (speedColumn g rows).length = rows.length) ∧
    (∀ (g : Geo) (rows : List TrackPoint), (speedColumn g rows).getD 0 0 = 0) ∧
    (∀ (g : Geo) (p0 : TrackPoint) (rest : List TrackPoint) (i : ℕ),
      i + 2 < (p0 :: rest).length →
      (speedColumn g (p0 :: rest)).getD (i + 1) 0 =
        (if 0 < ((p0 :: rest).getD (i + 1) ⟨0, 0, 0, 0, 0, 0⟩).timeAbs -
            ((p0 :: rest).getD i ⟨0, 0, 0, 0, 0, 0⟩).timeAbs then
          g.dist ((p0 :: rest).getD (i + 1) ⟨0, 0, 0, 0, 0, 0⟩)
              ((p0 :: rest).getD (i + 2) ⟨0, 0, 0, 0, 0, 0⟩) /
            ((((p0 :: rest).getD (i + 1) ⟨0, 0, 0, 0, 0, 0⟩).timeAbs -
              ((p0 :: rest).getD i ⟨0, 0, 0, 0, 0, 0⟩).timeAbs) / 3600)
        else 0)) ∧
    (∀ (g : Geo) (cfg : Config) (p0 : TrackPoint) (rest : List TrackPoint),
      (metricsOf g cfg p0 rest).avg_speed = meanQ (speedColumn g (p0 :: rest)) ∧
      (metricsOf g cfg p0 rest).speed_std = sampleStd (speedColumn g (p0 :: rest))) := by
  refine ⟨speedColumn_length, ?_, ?_, fun g cfg p0 rest => ⟨rfl, rfl⟩⟩
  · intro g rows
    cases rows with
    | nil => rfl
    | cons p rest =>
      cases rest with
      | nil =>
        show (List.zipWith speedOf ([] ++ [0]) (timeDiffs [p])).getD 0 0 = 0
        simp [timeDiffs, speedOf]
      | cons q rest2 =>
        show (speedOf (g.dist p q) 0 :: List.zipWith speedOf (distDiffs g (q :: rest2))
          (List.zipWith (fun b a => b.timeAbs - a.timeAbs) (q :: rest2)
            (p :: q :: rest2))).getD 0 0 = 0
        simp [speedOf]
  · intro g p0 rest i h
    cases rest with
    | nil =>
      exact absurd h (by simp)
    | cons q rest2 =>
      have hstep : speedColumn g (p0 :: q :: rest2) =
          speedOf (g.dist p0 q) 0 ::
            List.zipWith speedOf (distDiffs g (q :: rest2))
              (List.zipWith (fun b a => b.timeAbs - a.timeAbs) (q :: rest2)
                (p0 :: q :: rest2)) := rfl
      rw [hstep, List.getD_cons_succ]
      have hb : i + 1 < (q :: rest2).length := by
        simp only [List.length_cons] at h ⊢
        omega
      rw [speeds_tail_getD g (q :: rest2) p0 i hb]
      simp only [List.getD_cons_succ]

/-- Witness for C5 amended, instantiating the interior-row clause at a
concrete three-point series with unequal time gaps. -/
theorem c5_witness :
    (speedColumn ⟨fun _ _ => 1, fun _ _ => 0⟩
        [⟨0, 0, 100, 0, 10, 36000⟩, ⟨0, 1, 100, 3600, 10, 39600⟩,
         ⟨0, 2, 100, 10800, 10, 46800⟩]).getD 1 0 =
      (if 0 < (([⟨0, 0, 100, 0, 10, 36000⟩, ⟨0, 1, 100, 3600, 10, 39600⟩,
            ⟨0, 2, 100, 10800, 10, 46800⟩] : List TrackPoint).getD 1
              ⟨0, 0, 0, 0, 0, 0⟩).timeAbs -
          (([⟨0, 0, 100, 0, 10, 36000⟩, ⟨0, 1, 100, 3600, 10, 39600⟩,
            ⟨0, 2, 100, 10800, 10, 46800⟩] : List TrackPoint).getD 0
              ⟨0, 0, 0, 0, 0, 0⟩).timeAbs then
        Geo.dist ⟨fun _ _ => 1, fun _ _ => 0⟩
            (([⟨0, 0, 100, 0, 10, 36000⟩, ⟨0, 1, 100, 3600, 10, 39600⟩,
              ⟨0, 2, 100, 10800, 10, 46800⟩] : List TrackPoint).getD 1 ⟨0, 0, 0, 0, 0, 0⟩)
            (([⟨0, 0, 100, 0, 10, 36000⟩, ⟨0, 1, 100, 3600, 10, 39600⟩,
              ⟨0, 2, 100, 10800, 10, 46800⟩] : List TrackPoint).getD 2 ⟨0, 0, 0, 0, 0, 0⟩) /
          (((([⟨0, 0, 100, 0, 10, 36000⟩, ⟨0, 1, 100, 3600, 10, 39600⟩,
              ⟨0, 2, 100, 10800, 10, 46800⟩] : List TrackPoint).getD 1
                ⟨0, 0, 0, 0, 0, 0⟩).timeAbs -
            (([⟨0, 0, 100, 0, 10, 36000⟩, ⟨0, 1, 100, 3600, 10, 39600⟩,
              ⟨0, 2, 100, 10800, 10, 46800⟩] : List TrackPoint).getD 0
                ⟨0, 0, 0, 0, 0, 0⟩).timeAbs) / 3600)
      else 0) :=
  c5_row_speed_characterization.2.2.1 ⟨fun _ _ => 1, fun _ _ => 0⟩
    ⟨0, 0, 100, 0, 10, 36000⟩
    [⟨0, 1, 100, 3600, 10, 39600⟩, ⟨0, 2, 100, 10800, 10, 46800⟩] 0 (by norm_num)

/-! ## C2 — score bounds -/

/-- Pairwise distances are non-negative when the distance function is. -/
lemma pairDistances_nonneg (g : Geo) (hd : ∀ a b, 0 ≤ g.dist a b) :
    ∀ rows : List TrackPoint, ∀ d ∈ pairDistances g rows, 0 ≤ d := by
  intro rows
  induction rows with
  | nil => intro d hdm; simp [pairDistances] at hdm
  | cons p rest ih =>
    intro d hdm
    cases rest with
    | nil => simp [pairDistances] at hdm
    | cons q rest2 =>
      rcases List.mem_cons.mp hdm with h | h
      · rw [h]; exact hd p q
      · exact ih d h

/-- A single row speed is non-negative when its distance entry is. -/
lemma speedOf_nonneg (dd td : ℚ) (h : 0 ≤ dd) : 0 ≤ speedOf dd td := by
  unfold speedOf
  split_ifs with ht
  · exact div_nonneg h (by positivity)
  · exact le_refl 0

/-- All row speeds are non-negative when the distance function is. -/
lemma speedColumn_nonneg (g : Geo) (hd : ∀ a b, 0 ≤ g.dist a b)
    (rows : List TrackPoint) : ∀ v ∈ speedColumn g rows, 0 ≤ v := by
  have hdd : ∀ d ∈ distDiffs g rows, 0 ≤ d := by
    intro d hdm
    rcases List.mem_append.mp hdm with h | h
    · exact pairDistances_nonneg g hd rows d h
    · rw [List.mem_singleton.mp h]
  have key : ∀ (A B : List ℚ), (∀ a ∈ A, 0 ≤ a) → ∀ v ∈ List.zipWith speedOf A B, 0 ≤ v := by
    intro A
    induction A with
    | nil => intro B _ v hv; simp at hv
    | cons a A2 ih =>
      intro B hA v hv
      cases B with
      | nil => simp at hv
      | cons b B2 =>
        rw [List.zipWith_cons_cons] at hv
        rcases List.mem_cons.mp hv with h | h
        · rw [h]; exact speedOf_nonneg a b (hA a (List.mem_cons_self a A2))
        · exact ih B2 (fun x hx => hA x (List.mem_cons_of_mem a hx)) v h
  exact key _ _ hdd

/-- The mean of a non-negative column is non-negative. -/
lemma meanQ_nonneg (xs : List ℚ) (h : ∀ x ∈ xs, 0 ≤ x) : 0 ≤ meanQ xs :=
  div_nonneg (List.sum_nonneg h) (Nat.cast_nonneg _)

/-- In a weakly time-sorted series, the first timestamp bounds the last. -/
lemma head_le_last_timeAbs :
    ∀ (rest : List TrackPoint) (p0 : TrackPoint),
      List.Chain' (fun a b => a.timeAbs ≤ b.timeAbs) (p0 :: rest) →
      p0.timeAbs ≤ (lastOf p0 rest).timeAbs := by
  intro rest
  induction rest with
  | nil => intro p0 _; exact le_refl _
  | cons q rest2 ih =>
    intro p0 hc
    obtain ⟨h1, h2⟩ := List.chain'_cons.mp hc
    exact le_trans h1 (ih q h2)

/-- A clamp `min x 1` of a non-negative value lies in [0, 1]. -/
lemma min_one_range {α : Type} [LinearOrderedField α] (x : α) (hx : 0 ≤ x) :
    0 ≤ min x 1 ∧ min x 1 ≤ 1 :=
  ⟨le_min hx zero_le_one, min_le_right x 1⟩

/-- The duration sub-score lies in [0, 1] for a non-negative duration and a
positive `max_duration`. -/
lemma duration_score_range (minD maxD td : ℚ) (htd : 0 ≤ td) (hmax : 0 < maxD) :
    0 ≤ (if minD ≤ td ∧ td ≤ maxD then (1 : ℚ)
         else if td < minD then td / minD
         else max 0 (1 - (td - maxD) / (maxD * 2))) ∧
    (if minD ≤ td ∧ td ≤ maxD then (1 : ℚ)
     else if td < minD then td / minD
     else max 0 (1 - (td - maxD) / (maxD * 2))) ≤ 1 := by
  split_ifs with h1 h2
  · norm_num
  · have hmin : 0 < minD := lt_of_le_of_lt htd h2
    exact ⟨div_nonneg htd hmin.le, (div_le_one hmin).mpr h2.le⟩
  · have hge : minD ≤ td := not_lt.mp h2
    have hgt : maxD < td := by
      by_contra hcon
      exact h1 ⟨hge, not_lt.mp hcon⟩
    constructor
    · exact le_max_left 0 _
    · apply max_le
      · norm_num
      · have hq : 0 ≤ (td - maxD) / (maxD * 2) :=
          div_nonneg (by linarith) (by linarith)
        linarith

/-- The average-speed sub-score lies in [0, 1] for a non-negative average and
a positive `max_mushroom_speed`. -/
lemma avg_speed_score_range (ms avg : ℚ) (_havg : 0 ≤ avg) (hms : 0 < ms) :
    0 ≤ (if avg ≤ ms then (1 : ℚ) else max 0 (1 - (avg - ms) / ms)) ∧
    (if avg ≤ ms then (1 : ℚ) else max 0 (1 - (avg - ms) / ms)) ≤ 1 := by
  split_ifs with h
  · norm_num
  · constructor
    · exact le_max_left 0 _
    · apply max_le
      · norm_num
      · have hq : 0 ≤ (avg - ms) / ms := div_nonneg (by linarith [not_le.mp h]) hms.le
        linarith

/-- An eight-term weighted sum of [0,1] scores with non-negative weights lies
between 0 and the sum of the weights. -/
lemma wsum_bound_8 (s1 s2 s3 s4 s5 s6 s7 s8 w1 w2 w3 w4 w5 w6 w7 w8 : ℚ)
    (h1 : 0 ≤ s1 ∧ s1 ≤ 1) (h2 : 0 ≤ s2 ∧ s2 ≤ 1) (h3 : 0 ≤ s3 ∧ s3 ≤ 1)
    (h4 : 0 ≤ s4 ∧ s4 ≤ 1) (h5 : 0 ≤ s5 ∧ s5 ≤ 1) (h6 : 0 ≤ s6 ∧ s6 ≤ 1)
    (h7 : 0 ≤ s7 ∧ s7 ≤ 1) (h8 : 0 ≤ s8 ∧ s8 ≤ 1)
    (hw1 : 0 ≤ w1) (hw2 : 0 ≤ w2) (hw3 : 0 ≤ w3) (hw4 : 0 ≤ w4) (hw5 : 0 ≤ w5)
    (hw6 : 0 ≤ w6) (hw7 : 0 ≤ w7) (hw8 : 0 ≤ w8) :
    0 ≤ s1 * w1 + s2 * w2 + s3 * w3 + s4 * w4 + s5 * w5 + s6 * w6 + s7 * w7 + s8 * w8 ∧
    s1 * w1 + s2 * w2 + s3 * w3 + s4 * w4 + s5 * w5 + s6 * w6 + s7 * w7 + s8 * w8 ≤
      w1 + w2 + w3 + w4 + w5 + w6 + w7 + w8 := by
  constructor
  · have a1 := mul_nonneg h1.1 hw1
    have a2 := mul_nonneg h2.1 hw2
    have a3 := mul_nonneg h3.1 hw3
    have a4 := mul_nonneg h4.1 hw4
    have a5 := mul_nonneg h5.1 hw5
    have a6 := mul_nonneg h6.1 hw6
    have a7 := mul_nonneg h7.1 hw7
    have a8 := mul_nonneg h8.1 hw8
    linarith
  · have b1 := mul_le_of_le_one_left hw1 h1.2
    have b2 := mul_le_of_le_one_left hw2 h2.2
    have b3 := mul_le_of_le_one_left hw3 h3.2
    have b4 := mul_le_of_le_one_left hw4 h4.2
    have b5 := mul_le_of_le_one_left hw5 h5.2
    have b6 := mul_le_of_le_one_left hw6 h6.2
    have b7 := mul_le_of_le_one_left hw7 h7.2
    have b8 := mul_le_of_le_one_left hw8 h8.2
    linarith

/-- Basic range facts about the metrics produced for a valid (length ≥ 2,
time-sorted) series under a non-negative distance function. -/
lemma metricsOf_bounds (g : Geo) (cfg : Config) (p0 : TrackPoint) (rest : List TrackPoint)
    (hd : ∀ a b, 0 ≤ g.dist a b)
    (hsorted : List.Chain' (fun a b => a.timeAbs ≤ b.timeAbs) (p0 :: rest))
    (hrest : rest ≠ []) :
    0 ≤ (metricsOf g cfg p0 rest).tortuosity_index ∧
    0 ≤ (metricsOf g cfg p0 rest).avg_speed ∧
    0 ≤ (metricsOf g cfg p0 rest).direction_changes_per_km ∧
    ((metricsOf g cfg p0 rest).season_score = 0 ∨ (metricsOf g cfg p0 rest).season_score = 1) ∧
    (0 ≤ (metricsOf g cfg p0 rest).time_score ∧ (metricsOf g cfg p0 rest).time_score ≤ 1) ∧
    0 ≤ (metricsOf g cfg p0 rest).total_duration ∧
    0 ≤ (metricsOf g cfg p0 rest).spatial_density ∧
    ∃ av : ℝ, (metricsOf g cfg p0 rest).altitude_variability = some av ∧ 0 ≤ av := by
  refine ⟨?_, ?_, ?_, ?_, ?_, ?_, ?_, ?_⟩
  · show 0 ≤ if 0 < g.dist p0 (lastOf p0 rest) then
        (pairDistances g (p0 :: rest)).sum / g.dist p0 (lastOf p0 rest) else 1
    split_ifs with hp
    · exact div_nonneg (List.sum_nonneg (pairDistances_nonneg g hd _)) hp.le
    · norm_num
  · exact meanQ_nonneg _ (speedColumn_nonneg g hd _)
  · show 0 ≤ if 0 < (pairDistances g (p0 :: rest)).sum then
        ((directionChangeCount g cfg.direction_change_threshold (p0 :: rest) : ℚ) /
          (pairDistances g (p0 :: rest)).sum) else 0
    split_ifs with hp
    · exact div_nonneg (Nat.cast_nonneg _) hp.le
    · exact le_refl 0
  · show (if p0.month ∈ cfg.spring_months ++ cfg.autumn_months then (1 : ℚ) else 0) = 0 ∨
      (if p0.month ∈ cfg.spring_months ++ cfg.autumn_months then (1 : ℚ) else 0) = 1
    split_ifs with hm
    · exact Or.inr rfl
    · exact Or.inl rfl
  · have hlpos : 0 < (p0 :: rest).length := by simp
    show 0 ≤ (if 0 < (p0 :: rest).length then
        (((p0 :: rest).countP fun p =>
          decide (cfg.day_start ≤ p.timeOfDay ∧ p.timeOfDay ≤ cfg.day_end)) : ℚ) /
          (p0 :: rest).length else 0) ∧
      (if 0 < (p0 :: rest).length then
        (((p0 :: rest).countP fun p =>
          decide (cfg.day_start ≤ p.timeOfDay ∧ p.timeOfDay ≤ cfg.day_end)) : ℚ) /
          (p0 :: rest).length else 0) ≤ 1
    rw [if_pos hlpos]
    constructor
    · exact div_nonneg (Nat.cast_nonneg _) (Nat.cast_nonneg _)
    · rw [div_le_one (by exact_mod_cast hlpos)]
      exact_mod_cast List.countP_le_length _
  · show 0 ≤ (lastOf p0 rest).timeAbs - p0.timeAbs
    rw [sub_nonneg]
    exact head_le_last_timeAbs rest p0 hsorted
  · show 0 ≤ if 0 < (pairDistances g (p0 :: rest)).sum then
        (((p0 :: rest).length : ℚ) / (pairDistances g (p0 :: rest)).sum) else 0
    split_ifs with hp
    · exact div_nonneg (Nat.cast_nonneg _) hp.le
    · exact le_refl 0
  · refine ⟨Real.sqrt ((sampleVar ((p0 :: rest).map (·.elevation)) : ℚ) : ℝ), ?_,
      Real.sqrt_nonneg _⟩
    show sampleStd ((p0 :: rest).map (·.elevation)) = _
    unfold sampleStd
    rw [if_pos]
    rw [List.length_map, List.length_cons]
    have : 0 < rest.length := List.length_pos.mpr hrest
    omega

/-- Combining the rational weighted sum with the real altitude term. -/
lemma total_bound (Aq Wq walt : ℚ) (B : ℝ) (hA0 : 0 ≤ Aq) (hAW : Aq ≤ Wq)
    (hB0 : 0 ≤ B) (hBW : B ≤ (walt : ℝ)) :
    0 ≤ ((Aq : ℝ) + B) * 100 ∧ ((Aq : ℝ) + B) * 100 ≤ 100 * ((Wq + walt : ℚ) : ℝ) := by
  have h1 : (0 : ℝ) ≤ (Aq : ℝ) := by exact_mod_cast hA0
  have h2 : (Aq : ℝ) ≤ (Wq : ℝ) := by exact_mod_cast hAW
  have h3 : ((Wq + walt : ℚ) : ℝ) = (Wq : ℝ) + (walt : ℝ) := by push_cast; ring
  constructor
  · exact mul_nonneg (add_nonneg h1 hB0) (by norm_num)
  · rw [h3]
    linarith

/-- C2 amended: for every valid series (length ≥ 2, sorted by timestamp), a
non-negative distance function, non-negative weights AND positive
`max_mushroom_speed` and `max_duration` (the latter two are needed: the claim
as stated fails for negative thresholds), each of the nine sub-scores lies in
[0, 1] and the composite satisfies `0 ≤ total_score ≤ 100 × Σ weights`. -/
theorem c2_score_bounds (g : Geo) (cfg : Config) (df : DataFrame) (m : TrackMetrics)
    (df2 : DataFrame)
    (hd : ∀ a b, 0 ≤ g.dist a b)
    (hsorted : List.Chain' (fun a b => a.timeAbs ≤ b.timeAbs) df.rows)
    (hlen : 2 ≤ df.rows.length)
    (hw : nonnegWeights cfg.weights)
    (hms : 0 < cfg.max_mushroom_speed)
    (hmd : 0 < cfg.max_duration)
    (h : calculate_metrics g cfg df = some (m, df2)) :
    ∃ t s, calculate_mushroom_score cfg m = some (t, s) ∧
      (0 ≤ s.tortuosity ∧ s.tortuosity ≤ 1) ∧
      (0 ≤ s.avg_speed ∧ s.avg_speed ≤ 1) ∧
      (0 ≤ s.direction_changes ∧ s.direction_changes ≤ 1) ∧
      (0 ≤ s.stops ∧ s.stops ≤ 1) ∧
      (0 ≤ s.season ∧ s.season ≤ 1) ∧
      (0 ≤ s.daytime ∧ s.daytime ≤ 1) ∧
      (0 ≤ s.duration ∧ s.duration ≤ 1) ∧
      (0 ≤ s.altitude_variability ∧ s.altitude_variability ≤ 1) ∧
      (0 ≤ s.spatial_density ∧ s.spatial_density ≤ 1) ∧
      0 ≤ t ∧ t ≤ 100 * ((weightSum cfg.weights : ℚ) : ℝ) := by
  rcases hr : df.rows with _ | ⟨p0, rest⟩
  · simp [calculate_metrics, hr] at h
  · rw [hr] at hsorted hlen
    simp only [calculate_metrics, hr] at h
    obtain ⟨hm, -⟩ := Prod.mk.injEq .. ▸ Option.some.injEq .. ▸ h
    subst hm
    have hrest : rest ≠ [] := by
      intro hcon
      rw [hcon] at hlen
      simp at hlen
    obtain ⟨htor, havg, hdc, hss, hts, htd, hsd, av, hav, hav0⟩ :=
      metricsOf_bounds g cfg p0 rest hd hsorted hrest
    obtain ⟨hw1, hw2, hw3, hw4, hw5, hw6, hw7, hw8, hw9⟩ := hw
    have hc1 := min_one_range ((metricsOf g cfg p0 rest).tortuosity_index / 3)
      (div_nonneg htor (by norm_num))
    have hc2 := avg_speed_score_range cfg.max_mushroom_speed
      (metricsOf g cfg p0 rest).avg_speed havg hms
    have hc3 := min_one_range ((metricsOf g cfg p0 rest).direction_changes_per_km / 10)
      (div_nonneg hdc (by norm_num))
    have hc4 := min_one_range (((metricsOf g cfg p0 rest).stop_count : ℚ) / 10)
      (div_nonneg (Nat.cast_nonneg _) (by norm_num))
    have hc5 : 0 ≤ (metricsOf g cfg p0 rest).season_score ∧
        (metricsOf g cfg p0 rest).season_score ≤ 1 := by
      rcases hss with hseas | hseas
      · rw [hseas]; norm_num
      · rw [hseas]; norm_num
    have hc7 : 0 ≤ (metricsOf g cfg p0 rest).duration_score ∧
        (metricsOf g cfg p0 rest).duration_score ≤ 1 :=
      duration_score_range cfg.min_duration cfg.max_duration
        (metricsOf g cfg p0 rest).total_duration htd hmd
    have hc8 := min_one_range (av / 50) (div_nonneg hav0 (by norm_num))
    have hc9 := min_one_range ((metricsOf g cfg p0 rest).spatial_density / 100)
      (div_nonneg hsd (by norm_num))
    have hA := wsum_bound_8 _ _ _ _ _ _ _ _
      cfg.weights.tortuosity cfg.weights.avg_speed cfg.weights.direction_changes
      cfg.weights.stops cfg.weights.season cfg.weights.daytime cfg.weights.duration
      cfg.weights.spatial_density
      hc1 hc2 hc3 hc4 hc5 hts hc7 hc9 hw1 hw2 hw3 hw4 hw5 hw6 hw7 hw9
    have hB1 : (0 : ℝ) ≤ min (av / 50) 1 * (cfg.weights.altitude_variability : ℝ) :=
      mul_nonneg hc8.1 (by exact_mod_cast hw8)
    have hB2 : min (av / 50) 1 * (cfg.weights.altitude_variability : ℝ) ≤
        (cfg.weights.altitude_variability : ℝ) :=
      mul_le_of_le_one_left (by exact_mod_cast hw8) hc8.2
    have htot := total_bound _ _ cfg.weights.altitude_variability _ hA.1 hA.2 hB1 hB2
    have hwsum : weightSum cfg.weights =
        cfg.weights.tortuosity + cfg.weights.avg_speed + cfg.weights.direction_changes +
          cfg.weights.stops + cfg.weights.season + cfg.weights.daytime +
          cfg.weights.duration + cfg.weights.spatial_density +
          cfg.weights.altitude_variability := by
      unfold weightSum
      ring
    unfold calculate_mushroom_score
    rw [hav, hwsum]
    exact ⟨_, _, rfl, hc1, hc2, hc3, hc4, hc5, hts, hc7, hc8, hc9, htot.1, htot.2⟩

/-- C2 counterexample: with the default (non-negative) weights but
`max_mushroom_speed = -1`, a perfectly valid sorted two-point series yields an
`avg_speed` sub-score of 2, outside [0, 1] — the claim's premise of
non-negative weights alone is not sufficient. -/
theorem c2_counterexample :
    ∃ m df2 t s,
      calculate_metrics ⟨fun _ _ => 0, fun _ _ => 0⟩
          { default_config with max_mushroom_speed := -1 }
          (dfOf [⟨0, 0, 100, 0, 10, 36000⟩, ⟨0, 1, 100, 3600, 10, 39600⟩]) =
        some (m, df2) ∧
      calculate_mushroom_score { default_config with max_mushroom_speed := -1 } m =
        some (t, s) ∧
      nonnegWeights ({ default_config with max_mushroom_speed := -1 } : Config).weights ∧
      s.avg_speed = 2 ∧ ¬(s.avg_speed ≤ 1) := by
  have hav : (metricsOf ⟨fun _ _ => 0, fun _ _ => 0⟩
      { default_config with max_mushroom_speed := -1 } ⟨0, 0, 100, 0, 10, 36000⟩
      [⟨0, 1, 100, 3600, 10, 39600⟩]).altitude_variability =
      some (Real.sqrt ((sampleVar ([(⟨0, 0, 100, 0, 10, 36000⟩ : TrackPoint),
        ⟨0, 1, 100, 3600, 10, 39600⟩].map (·.elevation)) : ℚ) : ℝ)) := by
    show sampleStd ([(⟨0, 0, 100, 0, 10, 36000⟩ : TrackPoint),
      ⟨0, 1, 100, 3600, 10, 39600⟩].map (·.elevation)) = _
    unfold sampleStd
    rw [if_pos (by simp)]
  obtain ⟨t, s, hscore, hsavg⟩ : ∃ t s,
      calculate_mushroom_score { default_config with max_mushroom_speed := -1 }
        (metricsOf ⟨fun _ _ => 0, fun _ _ => 0⟩
          { default_config with max_mushroom_speed := -1 } ⟨0, 0, 100, 0, 10, 36000⟩
          [⟨0, 1, 100, 3600, 10, 39600⟩]) = some (t, s) ∧
      s.avg_speed = (if (metricsOf ⟨fun _ _ => 0, fun _ _ => 0⟩
          { default_config with max_mushroom_speed := -1 } ⟨0, 0, 100, 0, 10, 36000⟩
          [⟨0, 1, 100, 3600, 10, 39600⟩]).avg_speed ≤
            ({ default_config with max_mushroom_speed := -1 } : Config).max_mushroom_speed
        then 1
        else max 0 (1 - ((metricsOf ⟨fun _ _ => 0, fun _ _ => 0⟩
            { default_config with max_mushroom_speed := -1 } ⟨0, 0, 100, 0, 10, 36000⟩
            [⟨0, 1, 100, 3600, 10, 39600⟩]).avg_speed -
              ({ default_config with max_mushroom_speed := -1 } : Config).max_mushroom_speed) /
            ({ default_config with max_mushroom_speed := -1 } : Config).max_mushroom_speed)) := by
    unfold calculate_mushroom_score
    rw [hav]
    exact ⟨_, _, rfl, rfl⟩
  have havg0 : (metricsOf ⟨fun _ _ => 0, fun _ _ => 0⟩
      { default_config with max_mushroom_speed := -1 } ⟨0, 0, 100, 0, 10, 36000⟩
      [⟨0, 1, 100, 3600, 10, 39600⟩]).avg_speed = 0 := by
    show meanQ (speedColumn ⟨fun _ _ => 0, fun _ _ => 0⟩
      [⟨0, 0, 100, 0, 10, 36000⟩, ⟨0, 1, 100, 3600, 10, 39600⟩]) = 0
    rw [show speedColumn ⟨fun _ _ => 0, fun _ _ => 0⟩
        [⟨0, 0, 100, 0, 10, 36000⟩, ⟨0, 1, 100, 3600, 10, 39600⟩] = [0, 0] from by
      norm_num [speedColumn, distDiffs, pairDistances, timeDiffs, speedOf]]
    norm_num [meanQ]
  have hs2 : s.avg_speed = 2 := by
    rw [hsavg, havg0]
    norm_num [default_config]
  refine ⟨metricsOf ⟨fun _ _ => 0, fun _ _ => 0⟩
      { default_config with max_mushroom_speed := -1 } ⟨0, 0, 100, 0, 10, 36000⟩
      [⟨0, 1, 100, 3600, 10, 39600⟩],
    withColumns ⟨fun _ _ => 0, fun _ _ => 0⟩
      (dfOf [⟨0, 0, 100, 0, 10, 36000⟩, ⟨0, 1, 100, 3600, 10, 39600⟩]),
    t, s, rfl, hscore, ?_, hs2, ?_⟩
  · norm_num [nonnegWeights, default_config]
  · rw [hs2]
    norm_num

/-- Witness for C2 amended at the zero geometry and default configuration. -/
theorem c2_witness :
    ∃ t s, calculate_mushroom_score default_config
        (metricsOf ⟨fun _ _ => 0, fun _ _ => 0⟩ default_config ⟨0, 0, 100, 0, 10, 36000⟩
          [⟨0, 1, 100, 3600, 10, 39600⟩]) = some (t, s) ∧
      (0 ≤ s.tortuosity ∧ s.tortuosity ≤ 1) ∧
      (0 ≤ s.avg_speed ∧ s.avg_speed ≤ 1) ∧
      (0 ≤ s.direction_changes ∧ s.direction_changes ≤ 1) ∧
      (0 ≤ s.stops ∧ s.stops ≤ 1) ∧
      (0 ≤ s.season ∧ s.season ≤ 1) ∧
      (0 ≤ s.daytime ∧ s.daytime ≤ 1) ∧
      (0 ≤ s.duration ∧ s.duration ≤ 1) ∧
      (0 ≤ s.altitude_variability ∧ s.altitude_variability ≤ 1) ∧
      (0 ≤ s.spatial_density ∧ s.spatial_density ≤ 1) ∧
      0 ≤ t ∧ t ≤ 100 * ((weightSum default_config.weights : ℚ) : ℝ) :=
  c2_score_bounds ⟨fun _ _ => 0, fun _ _ => 0⟩ default_config
    (dfOf [⟨0, 0, 100, 0, 10, 36000⟩, ⟨0, 1, 100, 3600, 10, 39600⟩])
    (metricsOf ⟨fun _ _ => 0, fun _ _ => 0⟩ default_config ⟨0, 0, 100, 0, 10, 36000⟩
      [⟨0, 1, 100, 3600, 10, 39600⟩])
    (withColumns ⟨fun _ _ => 0, fun _ _ => 0⟩
      (dfOf [⟨0, 0, 100, 0, 10, 36000⟩, ⟨0, 1, 100, 3600, 10, 39600⟩]))
    (fun a b => le_refl 0)
    (by
      show List.Chain' _ [(⟨0, 0, 100, 0, 10, 36000⟩ : TrackPoint), ⟨0, 1, 100, 3600, 10, 39600⟩]
      refine List.chain'_cons.mpr ⟨?_, List.chain'_singleton _⟩
      norm_num)
    (by simp [dfOf])
    (by norm_num [nonnegWeights, default_config])
    (by norm_num [default_config])
    (by norm_num [default_config])
    rfl

end Mushroom
